import Mathlib

/-!
Verification of the MrMustard representation/contraction core against its
natural-language specification.

The development shallowly embeds the Python sources:
  * `mrmustard/math/datatypes.py`            (MatVecData, GaussianData, QuadraticPolyData)
  * `mrmustard/lab/representations/data/qpoly_data.py`  (QPolyData)
  * `mrmustard/lab_dev/wires.py`             (Wires)
  * `mrmustard/lab_dev/circuit_components.py` (CircuitComponent, connect)
  * `mrmustard/lab_dev/states.py`            (State, DM, Ket)
  * `mrmustard/lab/abstract/state_bak.py`    (State.ket purity gating)

Machine floats are modelled by rationals; numpy's tolerance comparisons
(`np.allclose`, `np.isclose`) are embedded exactly as
`|x - y| <= atol + rtol * |y|` with numpy's default `rtol = 1e-5` and
`atol = 1e-8` (or the per-call overrides appearing in the source).
Repository code that is imported by the embedded files but is not part of
the sources (for example `physics.representations`, `lab_dev/transformations.py`,
`CircuitComponent.__rshift__`, `Wires.__rshift__`) is modelled from the
specification; each such definition carries a doc comment starting with
`Modelled from the spec:`.
-/

/-- numpy's default relative tolerance `rtol = 1e-5`. -/
def npRtol : ℚ := 1 / 100000

/-- numpy's default absolute tolerance `atol = 1e-8`. -/
def npAtol : ℚ := 1 / 100000000

/-- `np.isclose(x, y, rtol, atol)` for scalars: `|x - y| <= atol + rtol * |y|`.
Note the asymmetry: the relative tolerance scales with the second argument. -/
def iscloseQ (rtol atol x y : ℚ) : Bool :=
  decide (|x - y| ≤ atol + rtol * |y|)

/-- Elementwise `np.allclose` on equal-length vectors with given tolerances.
The batches handled by the embedded code share one shape, so the numpy
broadcasting of unequal shapes is not modelled; unequal lengths yield `false`. -/
def allcloseVecQ (rtol atol : ℚ) (xs ys : List ℚ) : Bool :=
  xs.length == ys.length && (List.zip xs ys).all (fun p => iscloseQ rtol atol p.1 p.2)

/-- Elementwise `np.allclose` on equal-shape matrices with given tolerances. -/
def allcloseMatQ (rtol atol : ℚ) (m n : List (List ℚ)) : Bool :=
  m.length == n.length && (List.zip m n).all (fun p => allcloseVecQ rtol atol p.1 p.2)

/-- `np.allclose` with default tolerances on a batch of vectors. -/
def allcloseBatchVec (xs ys : List (List ℚ)) : Bool :=
  xs.length == ys.length && (List.zip xs ys).all (fun p => allcloseVecQ npRtol npAtol p.1 p.2)

/-- `np.allclose` with default tolerances on a batch of matrices. -/
def allcloseBatchMat (ms ns : List (List (List ℚ))) : Bool :=
  ms.length == ns.length && (List.zip ms ns).all (fun p => allcloseMatQ npRtol npAtol p.1 p.2)

/-- Python exceptions raised by the embedded code.  Each constructor's doc
comment records the exception and message raised by the source. -/
inductive PyErr where
  /-- `NameError: name 'Number' is not defined` (the name is never imported
  in `math/datatypes.py`). -/
  | nameErrNumber
  /-- `ValueError: The truth value of an array with more than one element is
  ambiguous` (numpy, on `bool()` of a multi-element array). -/
  | ambiguousArrayTruth
  /-- `AttributeError: can't set attribute` — assignment to the read-only
  property `Wires.ids`, whose setter is commented out in `wires.py`. -/
  | readOnlyIds
  /-- `ValueError("Cannot contract objects with different representations")`
  raised by `CircuitComponent.__matmul__`. -/
  | cannotContractDifferentReprs
  /-- `ValueError: operands could not be broadcast together` — numpy
  broadcasting of incompatible shapes (raised by `np.allclose` and by
  elementwise `+` alike). -/
  | broadcastMismatch
  /-- `ValueError: all the input array dimensions except for the
  concatenation axis must match exactly` — `np.concatenate`/backend `concat`
  on arrays whose non-batch dimensions differ. -/
  | concatMismatch
deriving DecidableEq

/-! ## `MatVecData` (`mrmustard/math/datatypes.py`)

A batched `(mat, vec, coeff)` record: three parallel lists sharing the batch
dimension.  `math.atleast_3d`/`atleast_2d`/`atleast_1d` in `__init__` are the
identity on already-batched input and are not modelled separately. -/

structure MatVecData where
  mat : List (List (List ℚ))
  vec : List (List ℚ)
  coeff : List ℚ
deriving DecidableEq

/-! The stored arrays of a `MatVecData` are numpy ndarrays of rank exactly
3 (`mat`, via `atleast_3d`), 2 (`vec`) and 1 (`coeff`).  `__add__` compares
and combines them with full numpy semantics: `np.allclose` broadcasts its
operands and raises `ValueError` on incompatible shapes, `+` broadcasts,
and `concat` along axis 0 requires the non-batch dimensions to match.  The
following definitions model shapes, broadcasting and these primitives; a
ragged nested list has no ndarray counterpart and is mapped to the
broadcast error. -/

/-- Shape `(rows, cols)` of a rank-2 ndarray given as a nested list, `none`
if the list is ragged. -/
def shape2 (x : List (List ℚ)) : Option (ℕ × ℕ) :=
  match x with
  | [] => some (0, 0)
  | r :: rs =>
      if rs.all (fun q => q.length == r.length) then some (x.length, r.length) else none

/-- Shape `(batch, rows, cols)` of a rank-3 ndarray given as a nested list,
`none` if ragged. -/
def shape3 (x : List (List (List ℚ))) : Option (ℕ × ℕ × ℕ) :=
  match x with
  | [] => some (0, 0, 0)
  | m :: ms =>
      match shape2 m with
      | some (r, c) =>
          if ms.all (fun mm => shape2 mm == some (r, c)) then some (x.length, r, c)
          else none
      | none => none

/-- numpy broadcasting of one pair of dimensions: equal sizes pass through
and a size of 1 is stretched; anything else is incompatible. -/
def bcastDim (a b : ℕ) : Option ℕ :=
  if a = b then some a else if a = 1 then some b else if b = 1 then some a else none

/-- Index into a possibly-stretched dimension: a size-1 dimension is read at
position 0 (stride-0 broadcasting). -/
def bIdx (i d : ℕ) : ℕ :=
  if d = 1 then 0 else i

def get1 (x : List ℚ) (i : ℕ) : ℚ := x.getD i 0

def get2 (x : List (List ℚ)) (i j : ℕ) : ℚ := (x.getD i []).getD j 0

def get3 (x : List (List (List ℚ))) (i j k : ℕ) : ℚ := ((x.getD i []).getD j []).getD k 0

/-- `np.allclose` on two rank-3 arrays with default tolerances: broadcast
the shapes (raising `ValueError` when incompatible), then require
`|x - y| <= atol + rtol * |y|` at every position of the broadcast shape. -/
def npAllclose3 (x y : List (List (List ℚ))) : Except PyErr Bool :=
  match shape3 x, shape3 y with
  | some (b1, r1, c1), some (b2, r2, c2) =>
      match bcastDim b1 b2, bcastDim r1 r2, bcastDim c1 c2 with
      | some bb, some rr, some cc =>
          Except.ok ((List.range bb).all fun i => (List.range rr).all fun j =>
            (List.range cc).all fun k =>
              iscloseQ npRtol npAtol (get3 x (bIdx i b1) (bIdx j r1) (bIdx k c1))
                (get3 y (bIdx i b2) (bIdx j r2) (bIdx k c2)))
      | _, _, _ => Except.error PyErr.broadcastMismatch
  | _, _ => Except.error PyErr.broadcastMismatch

/-- `np.allclose` on two rank-2 arrays with default tolerances. -/
def npAllclose2 (x y : List (List ℚ)) : Except PyErr Bool :=
  match shape2 x, shape2 y with
  | some (n1, m1), some (n2, m2) =>
      match bcastDim n1 n2, bcastDim m1 m2 with
      | some nn, some mm =>
          Except.ok ((List.range nn).all fun i => (List.range mm).all fun j =>
            iscloseQ npRtol npAtol (get2 x (bIdx i n1) (bIdx j m1))
              (get2 y (bIdx i n2) (bIdx j m2)))
      | _, _ => Except.error PyErr.broadcastMismatch
  | _, _ => Except.error PyErr.broadcastMismatch

/-- numpy `+` on two rank-1 arrays: elementwise over the broadcast length,
`ValueError` when the lengths differ and neither is 1. -/
def npAdd1 (x y : List ℚ) : Except PyErr (List ℚ) :=
  match bcastDim x.length y.length with
  | some n =>
      Except.ok ((List.range n).map fun i =>
        get1 x (bIdx i x.length) + get1 y (bIdx i y.length))
  | none => Except.error PyErr.broadcastMismatch

/-- `math.concat([x, y], axis=0)` on rank-3 arrays: appends the batches when
the row and column dimensions agree, `ValueError` otherwise. -/
def npConcat3 (x y : List (List (List ℚ))) : Except PyErr (List (List (List ℚ))) :=
  match shape3 x, shape3 y with
  | some (_, r1, c1), some (_, r2, c2) =>
      if r1 = r2 ∧ c1 = c2 then Except.ok (x ++ y) else Except.error PyErr.concatMismatch
  | _, _ => Except.error PyErr.concatMismatch

/-- `math.concat([x, y], axis=0)` on rank-2 arrays. -/
def npConcat2 (x y : List (List ℚ)) : Except PyErr (List (List ℚ)) :=
  match shape2 x, shape2 y with
  | some (_, m1), some (_, m2) =>
      if m1 = m2 then Except.ok (x ++ y) else Except.error PyErr.concatMismatch
  | _, _ => Except.error PyErr.concatMismatch

/-- `MatVecData.__add__`: evaluates `np.allclose(self.mat, other.mat)`, and
(Python `and` short-circuits) `np.allclose(self.vec, other.vec)` only when
the first is `True`; when both hold it returns `MatVecData(self.mat,
self.vec, self.coeff + other.coeff)` with `+` the numpy broadcast sum,
otherwise it concatenates the three batches along axis 0 (rank-1 `coeff`
arrays always concatenate).  Each numpy step can raise `ValueError` on
incompatible shapes, and the error propagates. -/
def MatVecData.add (d1 d2 : MatVecData) : Except PyErr MatVecData := do
  let mclose ← npAllclose3 d1.mat d2.mat
  let bothClose ← if mclose then npAllclose2 d1.vec d2.vec else pure false
  if bothClose then do
    let s ← npAdd1 d1.coeff d2.coeff
    pure ⟨d1.mat, d1.vec, s⟩
  else do
    let m ← npConcat3 d1.mat d2.mat
    let v ← npConcat2 d1.vec d2.vec
    pure ⟨m, v, d1.coeff ++ d2.coeff⟩

/-- One batch entry of a `MatVecData`: a `(matrix, vector, coefficient)` term. -/
structure MVTerm where
  mat : List (List ℚ)
  vec : List ℚ
  coeff : ℚ
deriving DecidableEq

/-- The comparison made by `MatVecData.simplify` between batch entries `i` and
`j`: `np.allclose(mat[i], mat[j]) and np.allclose(vec[i], vec[j])` (default
tolerances; the tolerance scales with the second argument). -/
def closeTerm (t u : MVTerm) : Bool :=
  allcloseMatQ npRtol npAtol t.mat u.mat && allcloseVecQ npRtol npAtol t.vec u.vec

/-- The accumulated coefficient of a representative: `coeff[i] += coeff[j]`
for every remaining `j` whose matrix and vector are allclose to entry `i`. -/
def mergeCoeff (t : MVTerm) (ts : List MVTerm) : ℚ :=
  (ts.filter (fun u => closeTerm t u)).foldl (fun a u => a + u.coeff) t.coeff

/-- The loop of `MatVecData.simplify`, fuelled for structural recursion.
CPython's `set.pop` on a set of small nonnegative integers returns them in
ascending numeric order, so the `while to_check` loop processes the smallest
unprocessed index as representative, merges every later allclose entry into
it, and removes them; the fuel is the batch length, which always suffices. -/
def mergePassAux : ℕ → List MVTerm → List MVTerm
  | _, [] => []
  | 0, _ :: _ => []
  | n + 1, t :: ts =>
      ⟨t.mat, t.vec, mergeCoeff t ts⟩ :: mergePassAux n (ts.filter (fun u => !closeTerm t u))

/-- The merge performed by one `simplify()` call on the batch of terms. -/
def mergePass (ts : List MVTerm) : List MVTerm :=
  mergePassAux ts.length ts

/-- Zip the three parallel batch arrays into a list of terms. -/
def zip3Terms : List (List (List ℚ)) → List (List ℚ) → List ℚ → List MVTerm
  | m :: ms, v :: vs, c :: cs => ⟨m, v, c⟩ :: zip3Terms ms vs cs
  | _, _, _ => []

/-- The batch of a `MatVecData` as a list of terms (`zip` of the three
parallel arrays). -/
def MatVecData.terms (d : MatVecData) : List MVTerm :=
  zip3Terms d.mat d.vec d.coeff

/-- Reassemble a `MatVecData` from a list of terms. -/
def ofTerms (ts : List MVTerm) : MatVecData :=
  ⟨ts.map (·.mat), ts.map (·.vec), ts.map (·.coeff)⟩

/-- `MatVecData.simplify` (the source mutates in place and keeps
`mat[to_keep]`, `vec[to_keep]`, `coeff[to_keep]`; the embedding returns the
resulting object). -/
def MatVecData.simplify (d : MatVecData) : MatVecData :=
  ofTerms (mergePass d.terms)

/-- `GaussianData.__mul__` (`datatypes.py`): the body's first expression is
`isinstance(other, Number)`, and `Number` is never imported in
`datatypes.py`, so every call raises `NameError` before any branch runs.
The code after the lookup shows what the scalar branch would return. -/
def GaussianData.mul (self : MatVecData) (other : ℚ) : Except PyErr MatVecData := do
  let _ ← (Except.error PyErr.nameErrNumber : Except PyErr Unit)
  pure ⟨self.mat, self.vec, self.coeff.map (· * other)⟩

/-- `QuadraticPolyData.__mul__` (`datatypes.py`): same unbound `Number`
lookup as `GaussianData.__mul__`, so every call raises `NameError`. -/
def QuadraticPolyData.mul (self : MatVecData) (other : ℚ) : Except PyErr MatVecData := do
  let _ ← (Except.error PyErr.nameErrNumber : Except PyErr Unit)
  pure ⟨self.mat, self.vec, self.coeff.map (· * other)⟩

/-- `MatVecData.helper_check_is_real_symmetric` is defined in
`lab/representations/data/matvec_data.py`, which is not under the sources.
Modelled from the spec: the matrix (each batch entry) must be square and
symmetric; the data is real (rational) by construction here. -/
def isRealSymmetric (ms : List (List (List ℚ))) : Bool :=
  ms.all fun m =>
    m.all (fun row => row.length == m.length) &&
    (List.range m.length).all fun i =>
      (List.range m.length).all fun j =>
        ((m.getD i []).getD j 0) == ((m.getD j []).getD i 0)

/-- `QPolyData.__mul__` (`lab/representations/data/qpoly_data.py`), scalar
branch: `other` is not a `QPolyData`, so `new_coeffs = self.c * other` and the
constructor `QPolyData(self.A, self.b, new_coeffs)` is called, which
re-validates that `A` is real symmetric and raises `ValueError` otherwise
(the `ValueError` case cannot arise from a well-formed receiver, so the
embedding models only the validated construction). -/
def QPolyData.mulScalar (self : MatVecData) (other : ℚ) : Option MatVecData :=
  if isRealSymmetric self.mat then
    some ⟨self.mat, self.vec, self.coeff.map (· * other)⟩
  else
    none

/-! ## `Wires` (`mrmustard/lab_dev/wires.py`)

A `Wires` object owns `self._modes` (sorted mode labels), an integer id
table `self._ids` of shape `modes × 4` with columns in the order
`[out_bra, in_bra, out_ket, in_ket]` (as built in `__init__`), and a
multiplicative `mask` of the same shape with entries `±1`.  The property
`ids` returns `self._ids * self.mask`. -/

structure IdRow where
  outBra : ℤ
  inBra : ℤ
  outKet : ℤ
  inKet : ℤ
deriving DecidableEq

/-- Elementwise product of two rows (`_ids * mask`, one mode at a time). -/
def IdRow.hadamard (a b : IdRow) : IdRow :=
  ⟨a.outBra * b.outBra, a.inBra * b.inBra, a.outKet * b.outKet, a.inKet * b.inKet⟩

/-- The column permutation `[:, [1, 0, 3, 2]]` used by `Wires.adjoint`:
new columns are `[in_bra, out_bra, in_ket, out_ket]`, i.e. the input and
output columns are exchanged within each of the bra and ket sides. -/
def IdRow.perm1032 (r : IdRow) : IdRow :=
  ⟨r.inBra, r.outBra, r.inKet, r.outKet⟩

/-- The column permutation `[:, [2, 3, 0, 1]]` used by `Wires.dual`:
new columns are `[out_ket, in_ket, out_bra, in_bra]`, i.e. the bra column
pair and the ket column pair are exchanged. -/
def IdRow.perm2301 (r : IdRow) : IdRow :=
  ⟨r.outKet, r.inKet, r.outBra, r.inBra⟩

/-- Whether any entry of the (masked) row is strictly positive. -/
def IdRow.anyPos (r : IdRow) : Bool :=
  (0 < r.outBra) || (0 < r.inBra) || (0 < r.outKet) || (0 < r.inKet)

structure Wires where
  modes : List ℕ
  idRows : List IdRow
  maskRows : List IdRow
deriving DecidableEq

/-- The `Wires.ids` property: `self._ids * self.mask`, row by row. -/
def Wires.ids (w : Wires) : List IdRow :=
  List.zipWith IdRow.hadamard w.idRows w.maskRows

/-- `Wires.adjoint`: `w = self.new(self._ids[:, [1, 0, 3, 2]])` together with
`w.mask = self.mask[:, [1, 0, 3, 2]]` (the modes are carried over by `new`). -/
def Wires.adjoint (w : Wires) : Wires :=
  ⟨w.modes, w.idRows.map IdRow.perm1032, w.maskRows.map IdRow.perm1032⟩

/-- `Wires.dual`: `w = self.new(self._ids[:, [2, 3, 0, 1]])` together with
`w.mask = self.mask[:, [2, 3, 0, 1]]`. -/
def Wires.dual (w : Wires) : Wires :=
  ⟨w.modes, w.idRows.map IdRow.perm2301, w.maskRows.map IdRow.perm2301⟩

/-- Set the masked columns of a mask row to `-1` (numpy
`mask[:, masked_cols] = -1`); column indices follow `[out_bra, in_bra,
out_ket, in_ket]`. -/
def IdRow.maskCols (cols : List ℕ) (r : IdRow) : IdRow :=
  ⟨if 0 ∈ cols then -1 else r.outBra,
   if 1 ∈ cols then -1 else r.inBra,
   if 2 ∈ cols then -1 else r.outKet,
   if 3 ∈ cols then -1 else r.inKet⟩

/-- `Wires.masked_view(masked_rows, masked_cols)`: a copy sharing `_ids`
whose mask has the given rows, then the given columns, set to `-1`. -/
def Wires.maskedView (w : Wires) (maskedRows maskedCols : List ℕ) : Wires :=
  ⟨w.modes, w.idRows,
   w.maskRows.enum.map fun p =>
     IdRow.maskCols maskedCols (if p.1 ∈ maskedRows then ⟨-1, -1, -1, -1⟩ else p.2)⟩

/-- `Wires.input`: view without output wires (columns 0 and 2 masked). -/
def Wires.input (w : Wires) : Wires := w.maskedView [] [0, 2]

/-- `Wires.output`: view without input wires (columns 1 and 3 masked). -/
def Wires.output (w : Wires) : Wires := w.maskedView [] [1, 3]

/-- `Wires.ket`: view without bra wires (columns 0 and 1 masked). -/
def Wires.ket (w : Wires) : Wires := w.maskedView [] [0, 1]

/-- `Wires.bra`: view without ket wires (columns 2 and 3 masked). -/
def Wires.bra (w : Wires) : Wires := w.maskedView [] [2, 3]

/-- `Wires.__getitem__(modes)`: view with every row whose mode is not among
the given modes masked. -/
def Wires.getModes (w : Wires) (ms : List ℕ) : Wires :=
  w.maskedView (w.modes.enum.filterMap fun p => if p.2 ∈ ms then none else some p.1) []

/-- `Wires.__getitem__(m)` for a single mode `m`. -/
def Wires.getMode (w : Wires) (m : ℕ) : Wires :=
  w.getModes [m]

/-- The `Wires.modes` property: the modes whose (masked) id row has some
strictly positive entry. -/
def Wires.activeModes (w : Wires) : List ℕ :=
  (w.modes.zip w.ids).filterMap fun p => if p.2.anyPos then some p.1 else none

/-- The `Wires.indices` property: flatten the (masked) id table in
column-major order (`ids.T.ravel()`), drop zero entries, and return the
positions of the strictly positive entries among the remaining nonzero
ones. -/
def Wires.indices (w : Wires) : List ℕ :=
  let flat := (w.ids.map (·.outBra)) ++ (w.ids.map (·.inBra)) ++
    (w.ids.map (·.outKet)) ++ (w.ids.map (·.inKet))
  ((flat.filter (fun x => x != 0)).enum.filterMap
    fun p => if 0 < p.2 then some p.1 else none)

/-- The claim's reading of `.adjoint` (and the docstring's: "ket <-> bra"):
the id table with the bra columns and the ket columns swapped. -/
def specBraKetSwap (rows : List IdRow) : List IdRow :=
  rows.map IdRow.perm2301

/-- The claim's reading of `.dual` (and the docstring's: "input <-> output"):
the id table with the input columns and the output columns swapped. -/
def specInOutSwap (rows : List IdRow) : List IdRow :=
  rows.map IdRow.perm1032

/-! ## Circuit components (`mrmustard/lab_dev/circuit_components.py`,
`mrmustard/lab_dev/states.py`)

The dynamic Python class of a component.  `Ket` and `DM` subclass `State`
(states.py); `State` subclasses `CircuitComponent`.  Modelled from the spec:
`Unitary` and `Channel` live in `lab_dev/transformations.py`, which is not
under the sources; per the spec they are sibling transformation classes, so
an instance of one is never an instance of the other. -/
inductive PyClass where
  | generic
  | state
  | ket
  | dm
  | unitary
  | channel
deriving DecidableEq

/-- The representation held by a component.  The classes `Bargmann` and
`Fock` live in `physics/representations.py`, which is not under the sources.
Modelled from the spec: `Bargmann` wraps a batched `(A, b, c)` triple and
`Fock` wraps an array of amplitudes (flattened here). -/
inductive PyRepr where
  | bargmann (A : List (List (List ℚ))) (b : List (List ℚ)) (c : List ℚ)
  | fock (array : List ℚ)
deriving DecidableEq

structure CircuitComponent where
  cls : PyClass
  wires : Wires
  rep : PyRepr
deriving DecidableEq

/-- Modelled from the spec: `Representation.__eq__` is not under the sources;
per the spec the Data algebra's `equals` is a batched allclose of the stored
arrays, and representations of different kinds are unequal. -/
def reprEqSpec : PyRepr → PyRepr → Bool
  | .bargmann A1 b1 c1, .bargmann A2 b2 c2 =>
      allcloseBatchMat A1 A2 && allcloseBatchVec b1 b2 && allcloseVecQ npRtol npAtol c1 c2
  | .fock x, .fock y => allcloseVecQ npRtol npAtol x y
  | _, _ => false

/-- `CircuitComponent.__eq__`: `return self.representation ==
other.representation` — the wires comparison is commented out in the source. -/
def CircuitComponent.eqPy (x y : CircuitComponent) : Bool :=
  reprEqSpec x.rep y.rep

/-- Sorted union of two mode lists, used by the spec-modelled wire
composition. -/
def mergeModes (a b : List ℕ) : List ℕ :=
  (a ++ b.filter (fun m => !a.contains m)).mergeSort (· ≤ ·)

/-- Modelled from the spec: `Wires.__rshift__` is not under the sources (only
its caller `CircuitComponent.__matmul__` is).  Per the spec it builds the
`Wires` of the sequential composition, spanning the union of the two
components' modes; the claims below depend only on the dynamic class and the
representation kind of results, so fresh unit ids stand in for the
monotonic-counter ids the spec prescribes. -/
def wiresRshiftSpec (a b : Wires) : Wires :=
  ⟨mergeModes a.modes b.modes,
   (mergeModes a.modes b.modes).map fun _ => ⟨1, 1, 1, 1⟩,
   (mergeModes a.modes b.modes).map fun _ => ⟨1, 1, 1, 1⟩⟩

/-- Modelled from the spec: the representation-level contraction
(`LEFT[idx_z] @ RIGHT[idx_zconj]` followed by `reorder`) is implemented in
`physics/representations.py`, not under the sources.  It combines two
representations of the same kind; only the kind is relevant to the claims. -/
def reprContractSpec : PyRepr → PyRepr → PyRepr
  | .bargmann A1 b1 c1, .bargmann A2 b2 c2 => .bargmann (A1 ++ A2) (b1 ++ b2) (c1 ++ c2)
  | .fock x, .fock y => .fock (x ++ y)
  | l, _ => l

/-- `set(other.modes).issubset(set(self.modes))` with `modes` the active
modes of each component's wires. -/
def modesSubsetB (other self : CircuitComponent) : Bool :=
  other.wires.activeModes.all fun m => self.wires.activeModes.contains m

/-- Modelled from the spec: `CircuitComponent.__rshift__` is not under the
sources (only its callers `Ket.__rshift__` and `DM.__rshift__` are, via
`super().__rshift__(other)`).  Per the spec it adds missing adjoints,
connects matching wires, contracts, and returns a plain (generic)
`CircuitComponent`. -/
def ccRshiftSpec (self other : CircuitComponent) : CircuitComponent :=
  ⟨PyClass.generic, wiresRshiftSpec self.wires other.wires,
   reprContractSpec self.rep other.rep⟩

/-- The `>>` dispatch of `states.py`: `Ket.__rshift__` wraps the generic
contraction in a fresh `Ket` when `other` is a `Unitary` on a subset of
`self`'s modes, in a fresh `DM` when `other` is a `Channel` on a subset of
`self`'s modes; `DM.__rshift__` wraps it in a fresh `DM` when `other` is a
`Unitary` or `Channel` on a subset of `self`'s modes; every other receiver
falls through to the base `CircuitComponent.__rshift__` and every failed
test returns the generic component unchanged. -/
def stateRshift (self other : CircuitComponent) : CircuitComponent :=
  let component := ccRshiftSpec self other
  match self.cls with
  | PyClass.ket =>
      if other.cls = PyClass.unitary ∧ modesSubsetB other self = true then
        { component with cls := PyClass.ket }
      else if other.cls = PyClass.channel ∧ modesSubsetB other self = true then
        { component with cls := PyClass.dm }
      else component
  | PyClass.dm =>
      if (other.cls = PyClass.unitary ∨ other.cls = PyClass.channel)
          ∧ modesSubsetB other self = true then
        { component with cls := PyClass.dm }
      else component
  | _ => component

/-- Whether the two representations are of different kinds (one `Bargmann`,
the other `Fock`) — the condition under which `CircuitComponent.__matmul__`
raises. -/
def reprKindsMixed : PyRepr → PyRepr → Bool
  | .bargmann _ _ _, .fock _ => true
  | .fock _, .bargmann _ _ _ => true
  | _, _ => false

/-- `CircuitComponent.__matmul__`: computes the composed wires (spec-modelled
`Wires.__rshift__`) and the contraction indices, raises
`ValueError("Cannot contract objects with different representations")` when
one representation is `Bargmann` and the other `Fock`, and otherwise returns
a new component with empty name carrying the contracted representation. -/
def CircuitComponent.matmul (self other : CircuitComponent) :
    Except PyErr CircuitComponent :=
  let wiresRet := wiresRshiftSpec self.wires other.wires
  let ketModes := self.wires.ket.output.activeModes.filter
    (fun m => other.wires.ket.input.activeModes.contains m)
  let braModes := self.wires.bra.output.activeModes.filter
    (fun m => other.wires.bra.input.activeModes.contains m)
  let _idxZ := (self.wires.getModes ketModes).ket.output.indices ++
    (self.wires.getModes braModes).bra.output.indices
  let _idxZconj := (other.wires.getModes ketModes).ket.input.indices ++
    (other.wires.getModes braModes).bra.input.indices
  if reprKindsMixed self.rep other.rep then
    Except.error PyErr.cannotContractDifferentReprs
  else
    Except.ok ⟨PyClass.generic, wiresRet, reprContractSpec self.rep other.rep⟩

/-! ## `connect` (`mrmustard/lab_dev/circuit_components.py`) -/

/-- `CircuitComponent.light_copy`: every attribute is shared by reference
except the wires, which are copied by value via `self.wires.copy()`.
Modelled from the spec: `Wires.copy` is not defined under the sources; per
the spec's glossary a light copy duplicates the wire identity structure,
which the pure-value embedding makes implicit. -/
def lightCopy (c : CircuitComponent) : CircuitComponent := c

/-- numpy truth value of an id table (a `modes × 4` integer array): the empty
array converts to `False` (numpy 1.x legacy behaviour) and any array of more
than one element raises `ValueError`; a table with at least one mode row has
four or more entries and always raises. -/
def npBoolIds (rows : List IdRow) : Except PyErr Bool :=
  match rows with
  | [] => Except.ok false
  | _ :: _ => Except.error PyErr.ambiguousArrayTruth

/-- The per-mode/side dictionaries `output_ket` / `output_bra` of `connect`:
mode keys mapped to the last `Wires` view stored for that mode, `None`
initially. -/
def ConnSt : Type := List (ℕ × Option Wires) × List (ℕ × Option Wires)

def alistGet (l : List (ℕ × Option Wires)) (k : ℕ) : Option Wires :=
  match l.find? (fun p => p.1 == k) with
  | some p => p.2
  | none => none

def alistSet (l : List (ℕ × Option Wires)) (k : ℕ) (v : Option Wires) :
    List (ℕ × Option Wires) :=
  l.map fun p => if p.1 == k then (p.1, v) else p

/-- One iteration of the inner loop of `connect` for a component and a mode:
evaluates `if component.wires[mode].ket.ids:` (a numpy boolean conversion of
a `modes × 4` array), on success would unify ids by assigning to the
read-only property `Wires.ids` (whose setter is commented out in `wires.py`,
so the assignment raises `AttributeError`), and records the mode's current
output view; then the same on the bra side. -/
def connectMode (c : CircuitComponent) (st : ConnSt) (mode : ℕ) :
    Except PyErr ConnSt := do
  let bKet ← npBoolIds ((c.wires.getMode mode).ket).ids
  let stKet ←
    if bKet then do
      match alistGet st.1 mode with
      | some _prev => Except.error PyErr.readOnlyIds
      | none => pure ()
      pure (alistSet st.1 mode (some (c.wires.getMode mode)))
    else pure st.1
  let bBra ← npBoolIds ((c.wires.getMode mode).bra).ids
  let stBra ←
    if bBra then do
      match alistGet st.2 mode with
      | some _prev => Except.error PyErr.readOnlyIds
      | none => pure ()
      pure (alistSet st.2 mode (some (c.wires.getMode mode)))
    else pure st.2
  pure (stKet, stBra)

/-- `connect(components)`: light-copies the components, then walks them in
order, mode by mode, unifying matching wire ids; returns the list of copies. -/
def connect (components : List CircuitComponent) :
    Except PyErr (List CircuitComponent) := do
  let ret := components.map lightCopy
  let allModes := ((components.map (fun c => c.wires.activeModes)).flatten).dedup
  let init : ConnSt := (allModes.map (fun m => (m, none)), allModes.map (fun m => (m, none)))
  let _ ← ret.foldlM (fun st c => c.wires.activeModes.foldlM (connectMode c) st) init
  pure ret

/-! ## `State.ket` purity gating (`mrmustard/lab/abstract/state_bak.py`)

A `State` initialized from a Fock-representation density matrix
(`State(dm=...)`): `is_gaussian = False`, `is_hilbert_vector = False`,
`_ket = None`, `_purity = None`.  A single mode is embedded, with the
density matrix a square rational matrix. -/

structure FockDMState where
  dm : List (List ℚ)
deriving DecidableEq

/-- Row-by-column rational matrix product. -/
def matMulQ (a b : List (List ℚ)) : List (List ℚ) :=
  a.map fun row =>
    (List.range (b.headD []).length).map fun j =>
      (row.zip b).foldl (fun s p => s + p.1 * (p.2.getD j 0)) 0

/-- Trace of a rational matrix. -/
def matTrace (a : List (List ℚ)) : ℚ :=
  a.enum.foldl (fun s p => s + p.2.getD p.1 0) 0

/-- Modelled from the spec: `fock.purity` (`physics/fock.py`, not under the
sources) computes the purity of a density matrix, `Tr(ρ²) / Tr(ρ)²`
(rational division is total with `x / 0 = 0`; physical states have a
nonzero trace). -/
def fockPurity (ρ : List (List ℚ)) : ℚ :=
  matTrace (matMulQ ρ ρ) / (matTrace ρ) ^ 2

/-- The `State.purity` property for a Fock dm state: `fock.purity(self._dm)`. -/
def FockDMState.purity (s : FockDMState) : ℚ :=
  fockPurity s.dm

/-- `State.is_pure`: `np.isclose(self.purity, 1.0, atol=1e-6)` (numpy's
default `rtol = 1e-5` still applies). -/
def FockDMState.isPure (s : FockDMState) : Bool :=
  iscloseQ npRtol (1 / 1000000) s.purity 1

/-- `State.is_mixed`: `not self.is_pure`. -/
def FockDMState.isMixed (s : FockDMState) : Bool :=
  !s.isPure

/-- Modelled from the spec: `fock.dm_to_ket` (`physics/fock.py`, not under
the sources) extracts a ket from a pure density matrix; the numeric
procedure is outside the sources, so an abstract extraction from the stored
matrix stands in — the claims below concern only when it is invoked. -/
def dmToKet (ρ : List (List ℚ)) : List ℚ :=
  ρ.headD []

/-- `State.ket(cutoffs=None)` for a Fock dm state: returns `None` when the
state is mixed; otherwise computes `self._ket = fock.dm_to_ket(self._dm)`,
zero-pads or slices to the requested cutoffs (the stored cutoffs, here the
dm dimension), and returns the ket.  No exception is raised on this path. -/
def FockDMState.ketPy (s : FockDMState) : Except PyErr (Option (List ℚ)) :=
  if s.isMixed then Except.ok none
  else
    let k := dmToKet s.dm
    if [s.dm.length] ≠ [k.length] then
      let padded := k ++ List.replicate (s.dm.length - k.length) 0
      Except.ok (some (padded.take s.dm.length))
    else
      Except.ok (some (k.take s.dm.length))

/-! ## Concrete objects used by witnesses and counterexamples

Wire ids are arbitrary positive integers standing for the random nonzero
62-bit ids the `Wires` constructor draws. -/

/-- A `Wires([0], [], [], [])`: one mode with a single out-bra wire. -/
def w0 : Wires :=
  ⟨[0], [⟨5, 0, 0, 0⟩], [⟨1, 1, 1, 1⟩]⟩

/-- A `Ket` on modes `[0, 1]` (out-ket wires only), as built by
`Ket(name, [0, 1])`. -/
def ket01 : CircuitComponent :=
  ⟨PyClass.ket, ⟨[0, 1], [⟨0, 0, 21, 0⟩, ⟨0, 0, 22, 0⟩], [⟨1, 1, 1, 1⟩, ⟨1, 1, 1, 1⟩]⟩,
   PyRepr.bargmann [[[0, 0], [0, 0]]] [[0, 0]] [1]⟩

/-- A `Channel` on modes `[0, 1]` (wires on all four sides). -/
def channel01 : CircuitComponent :=
  ⟨PyClass.channel, ⟨[0, 1], [⟨31, 32, 33, 34⟩, ⟨35, 36, 37, 38⟩],
    [⟨1, 1, 1, 1⟩, ⟨1, 1, 1, 1⟩]⟩,
   PyRepr.bargmann [[[0, 0], [0, 0]]] [[0, 0]] [1]⟩

/-- A one-mode `Ket`-like component with a ket-output wire on mode 0. -/
def connA : CircuitComponent :=
  ⟨PyClass.ket, ⟨[0], [⟨0, 0, 11, 0⟩], [⟨1, 1, 1, 1⟩]⟩, PyRepr.bargmann [[[0]]] [[0]] [1]⟩

/-- A one-mode `Unitary`-like component with ket-output and ket-input wires
on mode 0. -/
def connB : CircuitComponent :=
  ⟨PyClass.unitary, ⟨[0], [⟨0, 0, 12, 13⟩], [⟨1, 1, 1, 1⟩]⟩, PyRepr.bargmann [[[0]]] [[0]] [1]⟩

/-- A single-term `MatVecData`. -/
def d4a : MatVecData :=
  ⟨[[[1, 0], [0, 1]]], [[0, 0]], [1]⟩

/-- A single-term `MatVecData` with the same matrix and vector content as
`d4a` but a different coefficient. -/
def d4b : MatVecData :=
  ⟨[[[1, 0], [0, 1]]], [[0, 0]], [2]⟩

/-- A two-term batch of 1×1 matrices. -/
def d4c : MatVecData :=
  ⟨[[[1]], [[2]]], [[0], [0]], [1, 1]⟩

/-- A three-term batch of 1×1 matrices: its `(3, 1, 1)` mat array cannot be
broadcast against the `(2, 1, 1)` mat array of `d4c`. -/
def d4d : MatVecData :=
  ⟨[[[3]], [[4]], [[5]]], [[0], [0], [0]], [1, 1, 1]⟩

/-- A three-term batch whose 1×1 matrices `0`, `1e-8`, `2e-8` form an
allclose chain: consecutive entries are within tolerance, the extremes are
not. -/
def d5a : MatVecData :=
  ⟨[[[0]], [[1 / 100000000]], [[1 / 50000000]]], [[0], [0], [0]], [1, 1, 1]⟩

/-- The same batch as `d5a` with the first two terms exchanged. -/
def d5b : MatVecData :=
  ⟨[[[1 / 100000000]], [[0]], [[1 / 50000000]]], [[0], [0], [0]], [1, 1, 1]⟩

/-- A well-formed (real symmetric) `QPolyData`. -/
def dq : MatVecData :=
  ⟨[[[1, 2], [2, 1]]], [[0, 0]], [3]⟩

/-- A component holding a `Bargmann` representation. -/
def compBarg : CircuitComponent :=
  ⟨PyClass.generic, ⟨[0], [⟨0, 0, 41, 42⟩], [⟨1, 1, 1, 1⟩]⟩, PyRepr.bargmann [[[0]]] [[0]] [1]⟩

/-- A component holding a `Fock` representation. -/
def compFock : CircuitComponent :=
  ⟨PyClass.generic, ⟨[0], [⟨0, 0, 43, 44⟩], [⟨1, 1, 1, 1⟩]⟩, PyRepr.fock [1, 0]⟩

/-- A mixed Fock density matrix: `diag(1/2, 1/2)`, purity `1/2`. -/
def mixedDM : FockDMState :=
  ⟨[[1 / 2, 0], [0, 1 / 2]]⟩

/-- A pure Fock density matrix: `[[1]]`, purity `1`. -/
def pureDM : FockDMState :=
  ⟨[[1]]⟩

/-- A component with representation `bargRep0` and wires on mode 0. -/
def cmpR1 : CircuitComponent :=
  ⟨PyClass.ket, ⟨[0], [⟨0, 0, 51, 0⟩], [⟨1, 1, 1, 1⟩]⟩, PyRepr.bargmann [[[0]]] [[0]] [1]⟩

/-- A component with the same representation content as `cmpR1` but a
different class and entirely different wires (modes 3 and 7). -/
def cmpR2 : CircuitComponent :=
  ⟨PyClass.generic, ⟨[3, 7], [⟨61, 62, 63, 64⟩, ⟨65, 66, 67, 68⟩],
    [⟨1, 1, 1, 1⟩, ⟨1, 1, 1, 1⟩]⟩, PyRepr.bargmann [[[0]]] [[0]] [1]⟩

/-! ## Shared lemmas about `simplify` -/

/-- `closeTerm` reads only the matrix and vector of its second argument. -/
theorem closeTerm_congr (t : MVTerm) {u v : MVTerm}
    (hm : u.mat = v.mat) (hv : u.vec = v.vec) : closeTerm t u = closeTerm t v := by
  unfold closeTerm
  rw [hm, hv]

/-- Every output term of the merge loop has the matrix and vector of some
input term (only coefficients are rewritten). -/
theorem mergePassAux_shape :
    ∀ (n : ℕ) (ts : List MVTerm), ∀ u ∈ mergePassAux n ts,
      ∃ v ∈ ts, u.mat = v.mat ∧ u.vec = v.vec := by
  intro n
  induction n with
  | zero =>
      intro ts u hu
      cases ts with
      | nil => simp [mergePassAux] at hu
      | cons t ts => simp [mergePassAux] at hu
  | succ n ih =>
      intro ts u hu
      cases ts with
      | nil => simp [mergePassAux] at hu
      | cons t ts =>
          simp only [mergePassAux, List.mem_cons] at hu
          rcases hu with h | h
          · subst h
            exact ⟨t, List.mem_cons_self t ts, rfl, rfl⟩
          · obtain ⟨v, hv, hm, hvec⟩ := ih _ u h
            exact ⟨v, List.mem_cons_of_mem t (List.mem_of_mem_filter hv), hm, hvec⟩

/-- After one merge pass, no kept term is allclose to a later kept term. -/
theorem mergePassAux_pairwise :
    ∀ (n : ℕ) (ts : List MVTerm),
      (mergePassAux n ts).Pairwise (fun a b => closeTerm a b = false) := by
  intro n
  induction n with
  | zero => intro ts; cases ts <;> simp [mergePassAux]
  | succ n ih =>
      intro ts
      cases ts with
      | nil => simp [mergePassAux]
      | cons t ts =>
          simp only [mergePassAux]
          refine List.Pairwise.cons ?_ (ih _)
          intro u hu
          obtain ⟨v, hv, hm, hvec⟩ := mergePassAux_shape n _ u hu
          have hvf : closeTerm t v = false := by
            have := (List.mem_filter.mp hv).2
            simpa using this
          have h1 : closeTerm (⟨t.mat, t.vec, mergeCoeff t ts⟩ : MVTerm) u = closeTerm t u := rfl
          rw [h1, closeTerm_congr t hm hvec]
          exact hvf

/-- A batch in which no term is allclose to a later term is a fixed point of
the merge loop. -/
theorem mergePassAux_eq_self :
    ∀ (n : ℕ) (ts : List MVTerm), ts.length ≤ n →
      ts.Pairwise (fun a b => closeTerm a b = false) → mergePassAux n ts = ts := by
  intro n
  induction n with
  | zero =>
      intro ts hlen _
      have h0 : ts = [] := List.eq_nil_of_length_eq_zero (Nat.le_zero.mp hlen)
      subst h0
      rfl
  | succ n ih =>
      intro ts hlen hpw
      cases ts with
      | nil => rfl
      | cons t ts =>
          simp only [mergePassAux]
          have hd : ∀ v ∈ ts, closeTerm t v = false := (List.pairwise_cons.mp hpw).1
          have hfilter1 : ts.filter (fun u => closeTerm t u) = [] := by
            rw [List.filter_eq_nil_iff]
            intro a ha
            simp [hd a ha]
          have hfilter2 : ts.filter (fun u => !closeTerm t u) = ts := by
            rw [List.filter_eq_self]
            intro a ha
            simp [hd a ha]
          have hcoeff : mergeCoeff t ts = t.coeff := by
            unfold mergeCoeff
            rw [hfilter1]
            rfl
          rw [hfilter2, hcoeff,
            ih ts (Nat.le_of_succ_le_succ hlen) (List.pairwise_cons.mp hpw).2]

/-- Splitting a term list into parallel arrays and re-zipping is the
identity. -/
theorem terms_ofTerms : ∀ ts : List MVTerm, (ofTerms ts).terms = ts := by
  intro ts
  induction ts with
  | nil => rfl
  | cons t ts ih =>
      simp only [ofTerms, MatVecData.terms, List.map_cons] at *
      rw [zip3Terms]
      exact congrArg (List.cons t) ih

/-- The merge loop's result does not depend on the fuel once the fuel covers
the batch length. -/
theorem mergePassAux_fuel : ∀ (n m : ℕ) (ts : List MVTerm), ts.length ≤ n →
    ts.length ≤ m → mergePassAux n ts = mergePassAux m ts := by
  intro n
  induction n with
  | zero =>
      intro m ts h1 _h2
      have h0 : ts = [] := List.eq_nil_of_length_eq_zero (Nat.le_zero.mp h1)
      subst h0
      cases m <;> rfl
  | succ n ih =>
      intro m ts h1 h2
      cases ts with
      | nil => cases m <;> rfl
      | cons t ts =>
          cases m with
          | zero => exact absurd h2 (by simp)
          | succ m =>
              simp only [mergePassAux]
              congr 1
              have hf : (ts.filter (fun u => !closeTerm t u)).length ≤ ts.length :=
                List.length_filter_le _ _
              exact ih m _ (le_trans hf (Nat.le_of_succ_le_succ h1))
                (le_trans hf (Nat.le_of_succ_le_succ h2))

theorem mergePass_nil : mergePass [] = [] := rfl

/-- Unfolding rule for one step of the merge loop. -/
theorem mergePass_cons (t : MVTerm) (ts : List MVTerm) :
    mergePass (t :: ts) =
      ⟨t.mat, t.vec, mergeCoeff t ts⟩ :: mergePass (ts.filter (fun u => !closeTerm t u)) := by
  show mergePassAux (t :: ts).length (t :: ts) = _
  simp only [List.length_cons, mergePassAux]
  congr 1
  exact mergePassAux_fuel _ _ _ (List.length_filter_le _ _) (Nat.le_refl _)

/-- `Except.bind` on a success value. -/
theorem exceptBind_ok {e a b : Type} (x : a) (f : a → Except e b) :
    (Except.ok x >>= f) = f x := rfl

/-- `Except.bind` propagates an error. -/
theorem exceptBind_error {e a b : Type} (err : e) (f : a → Except e b) :
    ((Except.error err : Except e a) >>= f) = Except.error err := rfl

/-- Broadcast indexing is the identity inside the dimension. -/
theorem bIdx_lt {i n : ℕ} (h : i < n) : bIdx i n = i := by
  unfold bIdx
  split
  · omega
  · rfl

/-- Summing two equal-length rank-1 arrays position by position is `zipWith`. -/
theorem range_map_getD_zipWith :
    ∀ (x y : List ℚ), y.length = x.length →
      (List.range x.length).map (fun i => x.getD i 0 + y.getD i 0) =
        List.zipWith (· + ·) x y := by
  intro x
  induction x with
  | nil =>
      intro y h
      have h0 : y = [] := List.eq_nil_of_length_eq_zero h
      subst h0
      rfl
  | cons xa xs ih =>
      intro y h
      cases y with
      | nil => simp at h
      | cons yb ys =>
          have hlen : ys.length = xs.length := by simpa using h
          simp only [List.length_cons, List.range_succ_eq_map, List.map_cons, List.map_map,
            List.zipWith_cons_cons]
          congr 1
          rw [← ih ys hlen]
          rfl

/-- numpy `+` on equal-length rank-1 arrays is the elementwise `zipWith`. -/
theorem npAdd1_of_length_eq (x y : List ℚ) (h : x.length = y.length) :
    npAdd1 x y = Except.ok (List.zipWith (· + ·) x y) := by
  unfold npAdd1
  rw [← h]
  unfold bcastDim
  rw [if_pos rfl]
  rw [← range_map_getD_zipWith x y h.symm]
  refine congrArg Except.ok (List.map_congr_left ?_)
  intro i hi
  rw [bIdx_lt (List.mem_range.mp hi)]
  rfl

/-! ## Claim theorems -/

/-- C5 (amended): for every `MatVecData`, one `simplify()` pass reaches a
fixed point — a second `simplify()` changes none of `mat`, `vec`, `coeff`.
(The order-independence half of the claim is false; see the
counterexample.) -/
theorem c5_simplify_idempotent (d : MatVecData) :
    d.simplify.simplify = d.simplify := by
  unfold MatVecData.simplify
  rw [terms_ofTerms]
  have hpw := mergePassAux_pairwise d.terms.length d.terms
  exact congrArg ofTerms (mergePassAux_eq_self _ _ (le_refl _) hpw)

/-- C5 counterexample: `d5b` is a batch reordering of `d5a` (the first two
terms exchanged), yet `simplify()` merges `d5a` to two terms and `d5b` to a
single term, because the allclose tolerance relation is not transitive
(`0 ~ 1e-8` and `1e-8 ~ 2e-8` but `0 ≁ 2e-8`) — the merged result depends on
the batch order, refuting the claim as stated. -/
theorem c5_order_dependence :
    d5b.terms.Perm d5a.terms ∧
    MatVecData.simplify d5a =
      ofTerms [⟨[[0]], [0], 2⟩, ⟨[[1 / 50000000]], [0], 1⟩] ∧
    MatVecData.simplify d5b = ofTerms [⟨[[1 / 100000000]], [0], 3⟩] ∧
    MatVecData.simplify d5a ≠ MatVecData.simplify d5b := by
  have hAB : closeTerm ⟨[[0]], [0], 1⟩ ⟨[[1 / 100000000]], [0], 1⟩ = true := by
    with_unfolding_all decide
  have hAC : closeTerm ⟨[[0]], [0], 1⟩ ⟨[[1 / 50000000]], [0], 1⟩ = false := by
    with_unfolding_all decide
  have hBA : closeTerm ⟨[[1 / 100000000]], [0], 1⟩ ⟨[[0]], [0], 1⟩ = true := by
    with_unfolding_all decide
  have hBC : closeTerm ⟨[[1 / 100000000]], [0], 1⟩ ⟨[[1 / 50000000]], [0], 1⟩ = true := by
    with_unfolding_all decide
  have e1 : MatVecData.simplify d5a =
      ofTerms [⟨[[0]], [0], 2⟩, ⟨[[1 / 50000000]], [0], 1⟩] := by
    show ofTerms (mergePass _) = _
    rw [show d5a.terms =
      [⟨[[0]], [0], 1⟩, ⟨[[1 / 100000000]], [0], 1⟩, ⟨[[1 / 50000000]], [0], 1⟩] from rfl]
    rw [mergePass_cons]
    simp only [List.filter, hAB, hAC, Bool.not_true, Bool.not_false]
    rw [mergePass_cons]
    simp only [List.filter]
    rw [mergePass_nil]
    simp only [mergeCoeff, List.filter, hAB, hAC, List.foldl]
    norm_num [ofTerms]
  have e2 : MatVecData.simplify d5b = ofTerms [⟨[[1 / 100000000]], [0], 3⟩] := by
    show ofTerms (mergePass _) = _
    rw [show d5b.terms =
      [⟨[[1 / 100000000]], [0], 1⟩, ⟨[[0]], [0], 1⟩, ⟨[[1 / 50000000]], [0], 1⟩] from rfl]
    rw [mergePass_cons]
    simp only [List.filter, hBA, hBC, Bool.not_true]
    rw [mergePass_nil]
    simp only [mergeCoeff, List.filter, hBA, hBC, List.foldl]
    norm_num [ofTerms]
  refine ⟨?_, e1, e2, ?_⟩
  · exact List.Perm.swap (⟨[[0]], [0], 1⟩ : MVTerm) (⟨[[1 / 100000000]], [0], 1⟩ : MVTerm)
      [(⟨[[1 / 50000000]], [0], 1⟩ : MVTerm)]
  · intro h
    rw [e1, e2] at h
    have hlen := congrArg (fun d => d.coeff.length) h
    simp [ofTerms] at hlen

/-- C4 (amended): `MatVecData.__add__` with numpy semantics.  When
`np.allclose` finds the matrix and the vector content equal within tolerance
(shapes compared under numpy broadcasting), the result keeps `d1`'s `mat`
and `vec` and its `coeff` is the numpy broadcast sum `d1.coeff + d2.coeff` —
elementwise `zipWith` when the batch lengths are equal.  When the contents
are not both allclose and the non-batch dimensions agree, the three batches
are concatenated along the batch axis with no merging.  When the shapes are
not broadcast-compatible, `np.allclose` raises `ValueError` and `d1 + d2`
propagates it instead of concatenating. -/
theorem c4_add_broadcast_semantics (d1 d2 : MatVecData) :
    (∀ s, npAllclose3 d1.mat d2.mat = Except.ok true →
        npAllclose2 d1.vec d2.vec = Except.ok true →
        npAdd1 d1.coeff d2.coeff = Except.ok s →
        MatVecData.add d1 d2 = Except.ok ⟨d1.mat, d1.vec, s⟩) ∧
    (d1.coeff.length = d2.coeff.length →
        npAllclose3 d1.mat d2.mat = Except.ok true →
        npAllclose2 d1.vec d2.vec = Except.ok true →
        MatVecData.add d1 d2 =
          Except.ok ⟨d1.mat, d1.vec, List.zipWith (· + ·) d1.coeff d2.coeff⟩) ∧
    ((npAllclose3 d1.mat d2.mat = Except.ok false ∨
        (npAllclose3 d1.mat d2.mat = Except.ok true ∧
          npAllclose2 d1.vec d2.vec = Except.ok false)) →
        npConcat3 d1.mat d2.mat = Except.ok (d1.mat ++ d2.mat) →
        npConcat2 d1.vec d2.vec = Except.ok (d1.vec ++ d2.vec) →
        MatVecData.add d1 d2 =
          Except.ok ⟨d1.mat ++ d2.mat, d1.vec ++ d2.vec, d1.coeff ++ d2.coeff⟩) ∧
    (∀ err, npAllclose3 d1.mat d2.mat = Except.error err →
        MatVecData.add d1 d2 = Except.error err) := by
  refine ⟨?_, ?_, ?_, ?_⟩
  · intro s hm hv hs
    simp [MatVecData.add, hm, hv, hs, exceptBind_ok]
  · intro hlen hm hv
    simp [MatVecData.add, hm, hv, npAdd1_of_length_eq _ _ hlen, exceptBind_ok]
  · intro hcase hc3 hc2
    rcases hcase with hm | ⟨hm, hv⟩
    · simp [MatVecData.add, hm, hc3, hc2, exceptBind_ok]
    · simp [MatVecData.add, hm, hv, hc3, hc2, exceptBind_ok]
  · intro err hm
    simp [MatVecData.add, hm, exceptBind_error]

/-- C4 counterexample: on a two-term batch added to a three-term batch the
claim asserts concatenation, but `np.allclose` cannot broadcast the
`(2, 1, 1)` and `(3, 1, 1)` mat arrays and `__add__` raises `ValueError`
instead of returning the concatenated batches. -/
theorem c4_counterexample :
    MatVecData.add d4c d4d = Except.error PyErr.broadcastMismatch ∧
    MatVecData.add d4c d4d ≠
      Except.ok ⟨d4c.mat ++ d4d.mat, d4c.vec ++ d4d.vec, d4c.coeff ++ d4d.coeff⟩ := by
  have he : MatVecData.add d4c d4d = Except.error PyErr.broadcastMismatch := by
    with_unfolding_all rfl
  exact ⟨he, by rw [he]; exact fun h => Except.noConfusion h⟩

/-- C4 witness: two single-term batches with identical matrix and vector
content merge into one batch keeping `d4a`'s content, with the coefficient
arrays summed elementwise. -/
theorem c4_witness :
    MatVecData.add d4a d4b =
      Except.ok ⟨d4a.mat, d4a.vec, List.zipWith (· + ·) d4a.coeff d4b.coeff⟩ :=
  (c4_add_broadcast_semantics d4a d4b).2.1 rfl (by with_unfolding_all rfl)
    (by with_unfolding_all rfl)

/-- C6: every call of `GaussianData.__mul__` and `QuadraticPolyData.__mul__`
in `datatypes.py` raises `NameError` (the unbound name `Number`) instead of
scaling the coefficients; only `QPolyData.__mul__` in
`lab/representations/data/qpoly_data.py` scales the coefficients while
keeping the matrix and vector unchanged, shown here on a concrete input. -/
theorem c6_scalar_mul_eval :
    (∀ (d : MatVecData) (s : ℚ),
        GaussianData.mul d s = Except.error PyErr.nameErrNumber ∧
        QuadraticPolyData.mul d s = Except.error PyErr.nameErrNumber) ∧
    QPolyData.mulScalar dq 2 = some ⟨dq.mat, dq.vec, [6]⟩ := by
  refine ⟨fun d s => ⟨rfl, rfl⟩, ?_⟩
  with_unfolding_all decide

/-- C2: evaluation at a concrete `Wires` with a single out-bra wire of id 5.
The code's `.adjoint` applies the `[1, 0, 3, 2]` column permutation, which
moves the id from the out-bra column to the in-bra column — an input/output
swap — and differs from the claim's (and the docstring's) bra/ket column
swap; `.dual` applies `[2, 3, 0, 1]`, which is a bra/ket swap rather than
the claimed input/output swap. -/
theorem c2_adjoint_dual_eval :
    (Wires.adjoint w0).ids = [⟨0, 5, 0, 0⟩] ∧
    specBraKetSwap w0.ids = [⟨0, 0, 5, 0⟩] ∧
    (Wires.adjoint w0).ids ≠ specBraKetSwap w0.ids ∧
    (Wires.dual w0).ids = [⟨0, 0, 5, 0⟩] ∧
    specInOutSwap w0.ids = [⟨0, 5, 0, 0⟩] ∧
    (Wires.dual w0).ids ≠ specInOutSwap w0.ids := by
  refine ⟨?_, ?_, ?_, ?_, ?_, ?_⟩ <;> with_unfolding_all decide

/-- C9: for every `Wires`, applying `.adjoint` twice and applying `.dual`
twice each restore the original id table entrywise, masked entries
included — both column permutations are involutions acting on `_ids` and
`mask` alike. -/
theorem c9_involution (w : Wires) :
    (w.adjoint.adjoint).ids = w.ids ∧ (w.dual.dual).ids = w.ids := by
  have h1 : IdRow.perm1032 ∘ IdRow.perm1032 = id := by
    funext r
    cases r
    rfl
  have h2 : IdRow.perm2301 ∘ IdRow.perm2301 = id := by
    funext r
    cases r
    rfl
  constructor <;>
    simp [Wires.adjoint, Wires.dual, Wires.ids, List.map_map, h1, h2]

/-- C10: `CircuitComponent.__eq__` compares the representations alone — it
equals the (spec-modelled) representation equality for all components,
ignores the class and wires entirely, and in particular two components with
equal representations but different classes and disjoint wires compare
equal. -/
theorem c10_eq_by_representation :
    (∀ x y : CircuitComponent, CircuitComponent.eqPy x y = reprEqSpec x.rep y.rep) ∧
    (∀ (x y : CircuitComponent) (k1 k2 : PyClass) (w1 w2 : Wires),
        CircuitComponent.eqPy ⟨k1, w1, x.rep⟩ ⟨k2, w2, y.rep⟩ =
          CircuitComponent.eqPy x y) ∧
    CircuitComponent.eqPy cmpR1 cmpR2 = true ∧ cmpR1.wires ≠ cmpR2.wires := by
  refine ⟨fun x y => rfl, fun x y k1 k2 w1 w2 => rfl, ?_, ?_⟩ <;> with_unfolding_all decide

/-- C1: the `>>` dispatch of `states.py`.  With the receiver a `Ket`, the
result's dynamic class is `Ket` for a `Unitary` argument on a subset of the
receiver's modes and `DM` for a `Channel` argument on a subset of the
receiver's modes; with the receiver a `DM`, it is `DM` for a `Unitary` or
`Channel` argument on a subset of the receiver's modes; in every other case
(argument of another class, or modes not a subset, or receiver a plain
`State` or generic component) the result is the generic
`CircuitComponent`. -/
theorem c1_state_rshift_dispatch (K C : CircuitComponent) :
    (K.cls = PyClass.ket → C.cls = PyClass.unitary → modesSubsetB C K = true →
        (stateRshift K C).cls = PyClass.ket) ∧
    (K.cls = PyClass.ket → C.cls = PyClass.channel → modesSubsetB C K = true →
        (stateRshift K C).cls = PyClass.dm) ∧
    (K.cls = PyClass.dm → (C.cls = PyClass.unitary ∨ C.cls = PyClass.channel) →
        modesSubsetB C K = true → (stateRshift K C).cls = PyClass.dm) ∧
    ((K.cls = PyClass.ket ∨ K.cls = PyClass.dm) →
        ((C.cls ≠ PyClass.unitary ∧ C.cls ≠ PyClass.channel) ∨ modesSubsetB C K = false) →
        (stateRshift K C).cls = PyClass.generic) ∧
    ((K.cls = PyClass.state ∨ K.cls = PyClass.generic) →
        (stateRshift K C).cls = PyClass.generic) := by
  refine ⟨?_, ?_, ?_, ?_, ?_⟩
  · intro hK hC hS
    simp [stateRshift, hK, hC, hS]
  · intro hK hC hS
    simp [stateRshift, hK, hC, hS]
  · intro hK hC hS
    rcases hC with hC | hC <;> simp [stateRshift, hK, hC, hS]
  · intro hK hrest
    rcases hK with hK | hK <;> rcases hrest with ⟨h1, h2⟩ | hS <;>
      first
        | simp [stateRshift, hK, h1, h2, ccRshiftSpec]
        | simp [stateRshift, hK, hS, ccRshiftSpec]
  · intro hK
    rcases hK with hK | hK <;> simp [stateRshift, hK, ccRshiftSpec]

/-- C1 witness: the claim's concrete scenario — a `Ket` on modes `[0, 1]`
shifted into a `Channel` on modes `[0, 1]` produces an object whose dynamic
class is `DM`. -/
theorem c1_witness : (stateRshift ket01 channel01).cls = PyClass.dm :=
  (c1_state_rshift_dispatch ket01 channel01).2.1 rfl rfl (by with_unfolding_all decide)

/-- C3: evaluation of `connect` at two concrete one-mode components (a ket
producer and a unitary consumer on mode 0).  The first loop iteration
evaluates `if component.wires[mode].ket.ids:` — the truth value of a
`modes × 4` numpy array — which raises `ValueError`, so `connect` never
returns the connected light copies the claim describes (and had it got
further, the id-unifying assignment targets the read-only `Wires.ids`
property, whose setter is commented out in `wires.py`). -/
theorem c3_connect_eval :
    connect [connA, connB] = Except.error PyErr.ambiguousArrayTruth := by
  with_unfolding_all rfl

/-- C7: contracting two components whose representations are of different
kinds (one `Bargmann`, one `Fock`) fails with
`ValueError("Cannot contract objects with different representations")`; no
promotion between representations is attempted. -/
theorem c7_mixed_repr_error (L R : CircuitComponent)
    (h : reprKindsMixed L.rep R.rep = true) :
    CircuitComponent.matmul L R = Except.error PyErr.cannotContractDifferentReprs := by
  simp [CircuitComponent.matmul, h]

/-- C7 witness: a Bargmann-representation component contracted with a
Fock-representation component raises the incompatible-representations
error. -/
theorem c7_witness :
    CircuitComponent.matmul compBarg compFock =
      Except.error PyErr.cannotContractDifferentReprs :=
  c7_mixed_repr_error compBarg compFock rfl

/-- C8 counterexample: on the mixed density matrix `diag(1/2, 1/2)` (purity
`1/2`), `State.ket` returns `None` — `Except.ok none` — and does not fail
with an error as the claim states. -/
theorem c8_mixed_returns_none :
    FockDMState.ketPy mixedDM = Except.ok none := by
  with_unfolding_all rfl

/-- C8 (amended): for a Fock-representation state holding a density matrix,
`State.ket` computes the ket from the stored density matrix via
`fock.dm_to_ket` (padded/sliced to the stored cutoffs) exactly when the
purity is close to 1 (`np.isclose(purity, 1.0, atol=1e-6)`), and otherwise
returns `None` without raising an error. -/
theorem c8_ket_gating (s : FockDMState) :
    (s.isPure = true →
      FockDMState.ketPy s = Except.ok (some
        (((dmToKet s.dm) ++ List.replicate (s.dm.length - (dmToKet s.dm).length) 0).take
          s.dm.length))) ∧
    (s.isPure = false → FockDMState.ketPy s = Except.ok none) := by
  constructor
  · intro hp
    have hm : s.isMixed = false := by
      unfold FockDMState.isMixed
      rw [hp]
      rfl
    unfold FockDMState.ketPy
    rw [hm]
    by_cases hlen : s.dm.length = (dmToKet s.dm).length
    · simp [hlen, List.take_left']
    · simp [hlen]
  · intro hp
    have hm : s.isMixed = true := by
      unfold FockDMState.isMixed
      rw [hp]
      rfl
    unfold FockDMState.ketPy
    rw [hm]
    rfl

/-- C8 witness: on the pure density matrix `[[1]]` the gate is open and the
ket extracted from the stored matrix is returned. -/
theorem c8_witness : FockDMState.ketPy pureDM = Except.ok (some [1]) :=
  ((c8_ket_gating pureDM).1 (by with_unfolding_all decide)).trans
    (by with_unfolding_all rfl)
